import Mathlib

/-!
Verification development for the bits-paid-print-server repository
(single Express service, canonical source: src/unnamed/part_000).

The JavaScript handlers are shallowly embedded as pure Lean functions.
Bytes of an uploaded buffer are modelled as `List Nat` (each entry a byte
value, matching the latin1 single-byte decoding the code uses), strings as
Lean `String`/`List Char`, and the external collaborators (order store,
file store, checkout provider, randomness, clock) as an explicit
environment record threaded through the handler.
-/

set_option maxRecDepth 4000

/-! ## JavaScript string primitives used by the handlers -/

/-- ASCII lowercasing, modelling `String.prototype.toLowerCase` on the
ASCII-range strings the handlers compare (`color_mode` values and the
`.pdf` extension). -/
def jsToLower (s : String) : String :=
  String.mk (s.data.map Char.toLower)

/-- Characters treated as whitespace by the JavaScript `parseInt` prelude
(ECMAScript StrWhiteSpace restricted to the code points that can appear in
a form field: TAB, LF, VT, FF, CR, SPACE, NBSP, BOM). -/
def jsWhitespaceChar (c : Char) : Bool :=
  c.toNat = 9 || c.toNat = 10 || c.toNat = 11 || c.toNat = 12 ||
  c.toNat = 13 || c.toNat = 32 || c.toNat = 160 || c.toNat = 0xFEFF

/-- Value of a nonempty decimal digit string. -/
def decDigitsVal (l : List Char) : Int :=
  l.foldl (fun a c => a * 10 + ((c.toNat : Int) - 48)) 0

/-- `parseInt(s, 10)` from ECMAScript: skip leading whitespace, read an
optional sign, then the longest prefix of decimal digits; `none` models the
NaN result when no digit is found.  (JavaScript would round very large
values to a float; the handlers only ever see small copy counts, so the
exact-integer model is faithful on the reachable inputs.) -/
def jsParseInt10 (s : String) : Option Int :=
  let l := s.data.dropWhile jsWhitespaceChar
  let signAndRest : Int × List Char :=
    match l with
    | '-' :: t => (-1, t)
    | '+' :: t => (1, t)
    | _ => (1, l)
  let digits := signAndRest.2.takeWhile Char.isDigit
  if digits.isEmpty then none
  else some (signAndRest.1 * decDigitsVal digits)

/-! ## countPdfPages — the regex page-counting heuristic

Source:
  function countPdfPages(buffer) \x7b
    const text = buffer.toString("latin1");
    const matches = text.match(/\/Type\s*\/Page\b/g);
    return matches ? matches.length : 1;
  \x7d

Latin1 decoding maps byte k to code point k, so the scan is modelled
directly on the byte list.  `\s` on latin1 code points is
TAB/LF/VT/FF/CR/SPACE/NBSP; `\b` succeeds when the next code point is not
a word character `[A-Za-z0-9_]` (or at end of input). -/

/-- Latin1 code points matched by the JavaScript `\s` class. -/
def isSpaceByte (b : Nat) : Bool :=
  b = 9 || b = 10 || b = 11 || b = 12 || b = 13 || b = 32 || b = 160

/-- Latin1 code points matched by the JavaScript `\w` class. -/
def isWordByte (b : Nat) : Bool :=
  (65 ≤ b && b ≤ 90) || (97 ≤ b && b ≤ 122) || (48 ≤ b && b ≤ 57) || b = 95

/-- Match a literal byte pattern at the head of the input, returning the
remainder on success. -/
def litMatch : List Nat → List Nat → Option (List Nat)
  | [], l => some l
  | _ :: _, [] => none
  | p :: ps, b :: bs => if b = p then litMatch ps bs else none

/-- Bytes of the literal `/Type`. -/
def typeTok : List Nat := [47, 84, 121, 112, 101]

/-- Bytes of the literal `/Page`. -/
def pageTok : List Nat := [47, 80, 97, 103, 101]

/-- The zero-width `\b` assertion after `Page`: end of input or a
non-word byte. -/
def atWordBoundary (l : List Nat) : Bool :=
  match l with
  | [] => true
  | b :: _ => !isWordByte b

/-- Attempt the regex `\/Type\s*\/Page\b` at the current position.  The
`\s*` is greedy, and since `/` is not whitespace no backtracking can
succeed, so taking the maximal whitespace run is exact. -/
def matchTypePage (l : List Nat) : Option (List Nat) :=
  match litMatch typeTok l with
  | none => none
  | some r1 =>
    match litMatch pageTok (r1.dropWhile isSpaceByte) with
    | none => none
    | some r2 => if atWordBoundary r2 then some r2 else none

/-- Left-to-right non-overlapping scan of `String.prototype.match` with the
`g` flag: at each position try the pattern; on success continue after the
match, on failure advance one byte.  Fuel is the input length; every step
consumes at least one byte (a successful match consumes ten or more), so
the fuel never runs out before the input does. -/
def countMatchesAux : Nat → List Nat → Nat
  | 0, _ => 0
  | _ + 1, [] => 0
  | fuel + 1, b :: rest =>
    match matchTypePage (b :: rest) with
    | some r => 1 + countMatchesAux fuel r
    | none => countMatchesAux fuel rest

/-- Number of non-overlapping matches of `\/Type\s*\/Page\b` in the byte
sequence. -/
def countMatches (l : List Nat) : Nat :=
  countMatchesAux l.length l

/-- `countPdfPages`: the match count, or 1 when the pattern never occurs
(`matches` is `null`). -/
def countPdfPages (l : List Nat) : Nat :=
  match countMatches l with
  | 0 => 1
  | n => n

/-- Latin1/ASCII bytes of a Lean string literal, for concrete test inputs. -/
def strBytes (s : String) : List Nat :=
  s.data.map Char.toNat

/-! ## Filename sanitizer

Source: `file.originalname.replace(/[<>:"\/\\|?*]+/g, "_")` — each maximal
run of one or more characters from the class is replaced by a single
underscore. -/

/-- Membership in the character class `[<>:"/\\|?*]`. -/
def badChar (c : Char) : Bool :=
  c = '<' || c = '>' || c = ':' || c = '"' || c = '/' ||
  c = '\\' || c = '|' || c = '?' || c = '*'

/-- Scanner for the global replace: `prevBad` records whether the previous
character belonged to the class, so a run of class characters emits one
underscore at its first character only. -/
def sanitizeGo (prevBad : Bool) : List Char → List Char
  | [] => []
  | c :: rest =>
    if badChar c then
      (if prevBad then [] else ['_']) ++ sanitizeGo true rest
    else
      c :: sanitizeGo false rest

/-- The sanitized filename (`safeName` in the handler). -/
def sanitizeName (l : List Char) : List Char :=
  sanitizeGo false l

/-- The per-character replacement the specification sentence describes:
every class character becomes `_`, all others are kept.  Written from the
claim wording, for comparison against `sanitizeName`. -/
def charwiseSanitize (l : List Char) : List Char :=
  l.map (fun c => if badChar c then '_' else c)

/-! ## Node `path.extname`

Direct translation of the posix `extname` loop from Node (scan from the
end; remember the last dot, the end of the basename, and whether the dot
is preceded by a non-dot character of the basename). -/

structure ExtSt where
  startDot : Option Nat
  startPart : Nat
  endIdx : Option Nat
  matchedSlash : Bool
  preDot : Int
  deriving Repr, DecidableEq

/-- One iteration of the extname loop at index `i`; the `Bool` signals the
`break` taken at a path separator. -/
def extStep (c : Char) (i : Nat) (st : ExtSt) : ExtSt × Bool :=
  if c = '/' then
    if !st.matchedSlash then ({ st with startPart := i + 1 }, true)
    else (st, false)
  else
    let st1 :=
      if st.endIdx = none then
        { st with matchedSlash := false, endIdx := some (i + 1) }
      else st
    if c = '.' then
      if st1.startDot = none then ({ st1 with startDot := some i }, false)
      else if st1.preDot ≠ 1 then ({ st1 with preDot := 1 }, false)
      else (st1, false)
    else if st1.startDot ≠ none then ({ st1 with preDot := -1 }, false)
    else (st1, false)

/-- Run the loop from index `n - 1` down to 0. -/
def extLoop (l : List Char) : Nat → ExtSt → ExtSt
  | 0, st => st
  | n + 1, st =>
    let r := extStep (l.getD n ' ') n st
    if r.2 then r.1 else extLoop l n r.1

/-- `path.extname`, including its empty-result cases: no dot, empty input,
a dot that starts the basename with nothing before it, or a basename that
is exactly `..`. -/
def extname (s : String) : String :=
  let l := s.data
  let st := extLoop l l.length ⟨none, 0, none, true, 0⟩
  match st.startDot, st.endIdx with
  | some sd, some e =>
    if st.preDot = 0 then ""
    else if st.preDot = 1 && sd + 1 = e && sd = st.startPart + 1 then ""
    else String.mk ((l.drop sd).take (e - sd))
  | _, _ => ""

/-! ## generateCode

Source draws, for each of 6 positions, `chars[Math.floor(Math.random() *
chars.length)]`; since `Math.random()` lies in `[0, 1)` each draw is an
index in `[0, chars.length)`.  The literal alphabet in the source has 31
characters (it omits I, O, L, 0 and 1), so a draw is modelled as a stream
of `Fin 31` values indexed by the global draw counter. -/

/-- The alphabet string from the source, verbatim. -/
def codeAlphabet : List Char := "ABCDEFGHJKMNPQRSTUVWXYZ23456789".data

theorem codeAlphabet_length : codeAlphabet.length = 31 := by decide

/-- Character selected by one random draw. -/
def codeChar (i : Fin 31) : Char :=
  codeAlphabet.get ⟨i.val, by rw [codeAlphabet_length]; exact i.isLt⟩

/-- The `call`-th invocation of `generateCode` consumes draws
`6*call .. 6*call + 5` of the random stream. -/
def genCode (r : Nat → Fin 31) (call : Nat) : String :=
  String.mk ((List.range 6).map (fun i => codeChar (r (6 * call + i))))

/-! ## Data model and collaborator environment -/

/-- One row of the `print_orders` table, with the columns the handlers
read or write. -/
structure OrderRow where
  id : Nat
  code : String
  bucket : String
  file_path : String
  file_name : String
  color_mode : String
  copies : Option Int
  pages : Nat
  amount_cents : Option Int
  status : String
  payment_ref : Option String
  paid_at : Option String
  deriving Repr, DecidableEq

/-- Checkout session returned by the Yoco adapter on success. -/
structure Checkout where
  id : String
  redirectUrl : String
  deriving Repr, DecidableEq

/-- Outcome of a `maybeSingle` read as observed by the handler: one row
found, no row, or a client error (in which case `data` is null, which is
all the handler ever looks at). -/
inductive DbRead where
  | row
  | empty
  | err
  deriving Repr, DecidableEq

/-- Environment of external collaborators for one `/create-order`
request: the current order store, the id the store will assign to an
inserted row, the random stream, and the outcome of each side-effecting
call.  A `none` error field means the call succeeds. -/
structure Env where
  store : List OrderRow
  nextId : Nat
  rand : Nat → Fin 31
  probeFail : String → Bool
  uploadErr : Option String
  insertErr : Option String
  checkoutRes : Except String Checkout
  updateRefErr : Option String
  now : Nat
  bwRate : Int
  colorRate : Int

/-- Uploaded file as multer presents it. -/
structure ReqFile where
  originalname : String
  buffer : List Nat
  deriving Repr, DecidableEq

/-- Multipart form fields of a `/create-order` request; `none` models an
absent field. -/
structure CreateReq where
  file : Option ReqFile
  color_mode : Option String
  copies : Option String
  deriving Repr, DecidableEq

/-- Response of the `/create-order` handler. -/
inductive CreateResp where
  | badRequest (msg : String)
  | serverError (msg : String)
  | success (code : String) (pages : Nat) (copies : Option Int)
      (amount_cents : Option Int) (payUrl : String)
  deriving Repr, DecidableEq

/-- Whether a response is the success JSON. -/
def CreateResp.isSuccess : CreateResp → Bool
  | .success .. => true
  | _ => false

/-! ## Pricing and the copies field -/

/-- `Math.max(parseInt(req.body.copies || "1", 10), 1)`.  An absent or
empty field is the falsy case of `||` and is replaced by `"1"` before
parsing; `none` models the NaN produced when `parseInt` finds no digits
(`Math.max(NaN, 1)` is NaN). -/
def computedCopies (fld : Option String) : Option Int :=
  let s :=
    match fld with
    | none => "1"
    | some t => if t = "" then "1" else t
  (jsParseInt10 s).map (fun n => max n 1)

/-- `pages * copies * pricePerPage` with
`pricePerPage = color_mode === "bw" ? BW_PRICE : COLOR_PRICE`. -/
def priceCents (pages : Nat) (copies : Int) (mode : String)
    (bwRate colorRate : Int) : Int :=
  (pages : Int) * copies * (if mode = "bw" then bwRate else colorRate)

/-- `parseInt(envVar || dflt, 10)` — how each per-page rate is read from
process configuration at startup. -/
def rateFromEnv (v : Option String) (dflt : String) : Option Int :=
  jsParseInt10 (match v with
    | none => dflt
    | some t => if t = "" then dflt else t)

/-! ## The code-uniqueness retry loop -/

/-- One uniqueness probe:
`supabase.from("print_orders").select("id").eq("code", c).maybeSingle()`.
Exactly one matching row yields that row; zero rows yield null data; more
than one row makes `maybeSingle` return an error (null data), as does a
store failure. -/
def probeOf (env : Env) (c : String) : DbRead :=
  if env.probeFail c then .err
  else
    match (env.store.filter (fun r => r.code == c)).length with
    | 0 => .empty
    | 1 => .row
    | _ => .err

/-- The `for (let i = 0; i < 5; i++)` retry loop, with the remaining
iteration count as the recursion argument and `c` the index of the
current candidate.  The handler keeps the current candidate as soon as
the probe sees no row (`if (!data) break`), and otherwise generates the
next candidate. -/
def pickCodeIdx (probe : String → DbRead) (gen : Nat → String) :
    Nat → Nat → Nat
  | 0, c => c
  | n + 1, c =>
    match probe (gen c) with
    | .row => pickCodeIdx probe gen n (c + 1)
    | _ => c

/-- The pickup code the handler proceeds with. -/
def orderCode (env : Env) : String :=
  genCode env.rand
    (pickCodeIdx (probeOf env) (fun k => genCode env.rand k) 5 0)

/-! ## POST /create-order (canonical handler, part_000) -/

/-- `(req.body.color_mode || "bw").toLowerCase()`: an absent or empty
field is the falsy `||` case. -/
def reqColorMode (req : CreateReq) : String :=
  jsToLower (match req.color_mode with
    | none => "bw"
    | some t => if t = "" then "bw" else t)

/-- The `/create-order` handler: validation, page count, pricing, code
retry loop, upload, insert, checkout creation, and the final
`payment_ref` update whose result the source never checks.  Returns the
HTTP response together with the order store after the request. -/
def createOrder (env : Env) (req : CreateReq) :
    CreateResp × List OrderRow :=
  let color_mode := reqColorMode req
  let copies := computedCopies req.copies
  match req.file with
  | none => (.badRequest "No file uploaded", env.store)
  | some f =>
    if jsToLower (extname f.originalname) ≠ ".pdf" then
      (.badRequest "PDF only allowed", env.store)
    else if !(["bw", "color"].contains color_mode) then
      (.badRequest "Invalid color_mode", env.store)
    else
      let pages := countPdfPages f.buffer
      let amount := copies.map
        (fun c => priceCents pages c color_mode env.bwRate env.colorRate)
      let code := orderCode env
      let safeName := String.mk (sanitizeName f.originalname.data)
      let storagePath := code ++ "/" ++ toString env.now ++ "_" ++ safeName
      match env.uploadErr with
      | some e => (.serverError e, env.store)
      | none =>
        match env.insertErr with
        | some e => (.serverError e, env.store)
        | none =>
          let row : OrderRow :=
            { id := env.nextId, code := code, bucket := "paid-print-jobs",
              file_path := storagePath, file_name := safeName,
              color_mode := color_mode, copies := copies, pages := pages,
              amount_cents := amount, status := "pending_payment",
              payment_ref := none, paid_at := none }
          let store1 := env.store ++ [row]
          match env.checkoutRes with
          | .error e => (.serverError e, store1)
          | .ok ck =>
            let store2 :=
              if env.updateRefErr.isSome then store1
              else store1.map (fun r =>
                if r.id = row.id then { r with payment_ref := some ck.id }
                else r)
            (.success code pages copies amount ck.redirectUrl, store2)

/-! ## POST /webhook/yoco -/

/-- Response of the webhook handler: 400 without a checkout id, 200
`Ignored` for a non-succeeded status, 404 when no order matches, 200 `OK`
after the paid update. -/
inductive WebhookResp where
  | noId
  | ignored
  | notFound
  | ok
  deriving Repr, DecidableEq

/-- `.update(\x7b status: "paid", paid_at: ... \x7d).eq("id", oid)` applied to
one row. -/
def paidUpdate (t : String) (oid : Nat) (r : OrderRow) : OrderRow :=
  if r.id = oid then { r with status := "paid", paid_at := some t } else r

/-- The `data` of the webhook order lookup
(`.eq("payment_ref", cid).maybeSingle()`, error field never read):
null on a store failure or unless exactly one row matches. -/
def webhookLookup (store : List OrderRow) (lookupErr : Option String)
    (cid : String) : Option OrderRow :=
  if lookupErr.isSome then none
  else
    match store.filter (fun r => r.payment_ref == some cid) with
    | [o] => some o
    | _ => none

/-- The `/webhook/yoco` handler at time `t` (the ISO string put in
`paid_at`).  `pid`/`pstatus` are `event?.payload?.id` and
`event?.payload?.status`; an absent or empty id is the falsy
`if (!checkoutId)` case. -/
def webhookStep (store : List OrderRow) (lookupErr : Option String)
    (pid pstatus : Option String) (t : String) :
    WebhookResp × List OrderRow :=
  match pid with
  | none => (.noId, store)
  | some cid =>
    if cid = "" then (.noId, store)
    else if pstatus ≠ some "succeeded" then (.ignored, store)
    else
      match webhookLookup store lookupErr cid with
      | none => (.notFound, store)
      | some o => (.ok, store.map (paidUpdate t o.id))

/-- Rows of a store carrying a given id (the target set of an
`.eq("id", i)` update). -/
def rowsWithId (s : List OrderRow) (i : Nat) : List OrderRow :=
  s.filter (fun r => r.id == i)

/-! ## Helper lemmas -/

theorem genCode_length (r : Nat → Fin 31) (call : Nat) :
    (genCode r call).length = 6 := by
  simp [genCode, String.length]

theorem codeChar_mem (i : Fin 31) : codeChar i ∈ codeAlphabet := by
  unfold codeChar
  exact List.get_mem _ _ _

theorem paidUpdate_id (t : String) (oid : Nat) (r : OrderRow) :
    (paidUpdate t oid r).id = r.id := by
  unfold paidUpdate; split <;> rfl

theorem paidUpdate_payment_ref (t : String) (oid : Nat) (r : OrderRow) :
    (paidUpdate t oid r).payment_ref = r.payment_ref := by
  unfold paidUpdate; split <;> rfl

theorem paidUpdate_status_of_id (t : String) (oid : Nat) (r : OrderRow)
    (h : r.id = oid) : (paidUpdate t oid r).status = "paid" := by
  simp [paidUpdate, h]

theorem paidUpdate_idem (t : String) (oid : Nat) (r : OrderRow) :
    paidUpdate t oid (paidUpdate t oid r) = paidUpdate t oid r := by
  by_cases h : r.id = oid <;> simp [paidUpdate, h]

theorem filter_map_comm {α : Type} (f : α → α) (p : α → Bool)
    (hp : ∀ r, p (f r) = p r) :
    ∀ l : List α, (l.map f).filter p = (l.filter p).map f := by
  intro l
  induction l with
  | nil => rfl
  | cons a t ih =>
    simp only [List.map_cons, List.filter_cons, hp a]
    by_cases h : p a
    · simp [h, ih]
    · simp [h, ih]

theorem zip_refl_all (p : OrderRow × OrderRow → Bool)
    (hp : ∀ r, p (r, r) = true) :
    ∀ l : List OrderRow, ((l.zip l).all p) = true := by
  intro l
  induction l with
  | nil => rfl
  | cons a t ih => simp [List.zip_cons_cons, hp a, ih]

theorem zip_map_left_all (f : OrderRow → OrderRow)
    (p : OrderRow × OrderRow → Bool) (hp : ∀ r, p (f r, r) = true) :
    ∀ l : List OrderRow, (((l.map f).zip l).all p) = true := by
  intro l
  induction l with
  | nil => rfl
  | cons a t ih => simp [List.zip_cons_cons, hp a, ih]

theorem find?_cons_ite {α : Type} (p : α → Bool) (a : α) (l : List α) :
    List.find? p (a :: l) = if p a then some a else List.find? p l := by
  by_cases h : p a = true
  · rw [List.find?_cons_of_pos _ h, if_pos h]
  · rw [List.find?_cons_of_neg _ h, if_neg h]

theorem pickCodeIdx_eq_spec (probe : String → DbRead) (gen : Nat → String) :
    ∀ n c, pickCodeIdx probe gen n c =
      (((List.range' c n).find?
          (fun k => !(probe (gen k) == DbRead.row))).getD (c + n)) := by
  intro n
  induction n with
  | zero => intro c; simp [pickCodeIdx]
  | succ m ih =>
    intro c
    rw [List.range'_succ, find?_cons_ite]
    cases hp : probe (gen c) with
    | row =>
      simp only [pickCodeIdx, hp]
      rw [ih (c + 1)]
      have hcond : (!(DbRead.row == DbRead.row)) = false := rfl
      simp only [hp, hcond, Bool.false_eq_true, if_false]
      rw [show c + 1 + m = c + (m + 1) from by omega]
    | empty =>
      simp only [pickCodeIdx, hp]
      have hcond : (!(DbRead.empty == DbRead.row)) = true := rfl
      simp [hp, hcond]
    | err =>
      simp only [pickCodeIdx, hp]
      have hcond : (!(DbRead.err == DbRead.row)) = true := rfl
      simp [hp, hcond]

/-- Head of the list, if any, is outside the sanitized character class. -/
def headSafeChars (l : List Char) : Bool :=
  match l with
  | [] => true
  | c :: _ => !badChar c

theorem sanitizeGo_true_of_headSafe (l : List Char)
    (h : headSafeChars l = true) : sanitizeGo true l = sanitizeGo false l := by
  cases l with
  | nil => rfl
  | cons c t =>
    have hc : badChar c = false := by
      simpa [headSafeChars] using h
    simp [sanitizeGo, hc]

theorem sanitizeGo_skip_run (run : List Char) (l : List Char)
    (h : run.all badChar = true) :
    sanitizeGo true (run ++ l) = sanitizeGo true l := by
  induction run with
  | nil => rfl
  | cons c rest ih =>
    have hc : badChar c = true := by
      have := List.all_eq_true.mp h c (by simp)
      simpa using this
    have hrest : rest.all badChar = true := by
      refine List.all_eq_true.mpr ?_
      intro x hx
      exact List.all_eq_true.mp h x (by simp [hx])
    simp [sanitizeGo, hc, ih hrest]

theorem sanitizeGo_all_safe (l : List Char) :
    ∀ b, ((sanitizeGo b l).all (fun c => !badChar c)) = true := by
  induction l with
  | nil => intro b; rfl
  | cons c t ih =>
    intro b
    by_cases hc : badChar c = true
    · have hu : badChar '_' = false := by decide
      cases b <;> simp [sanitizeGo, hc, ih true, hu]
    · have hc2 : badChar c = false := by simpa using hc
      simp [sanitizeGo, hc2, ih false]

/-! ## Concrete inputs used by the claim instances -/

/-- Environment with an empty order store and every collaborator call
succeeding. -/
def specEnvOk : Env :=
  { store := [], nextId := 1, rand := fun _ => 0,
    probeFail := fun _ => false, uploadErr := none, insertErr := none,
    checkoutRes := .ok ⟨"ch_123", "https://pay.example/redirect"⟩,
    updateRefErr := none, now := 1700000000000,
    bwRate := 200, colorRate := 800 }

/-- Bytes of a minimal two-page PDF skeleton. -/
def twoPageBytes : List Nat :=
  strBytes "<< /Type /Page >> << /Type /Page >>"

/-- A valid color request: 2-page PDF, 3 copies. -/
def specReqColor : CreateReq :=
  { file := some ⟨"doc.pdf", twoPageBytes⟩,
    color_mode := some "color", copies := some "3" }

/-- Bytes with exactly three `/Type /Page` markers and one
`/Type /Pages`. -/
def threePageBytes : List Nat :=
  strBytes "1 0 obj /Type /Page x /Type /Pages y /Type /Page z /Type /Page end"

/-- Bytes whose only marker is the `/Type /Pages` tree node. -/
def pagesOnlyBytes : List Nat :=
  strBytes "obj /Type /Pages end"

/-- `specEnvOk` with a failing final `payment_ref` update. -/
def envUpdateFail : Env :=
  { specEnvOk with updateRefErr := some "update failed" }

/-- `specEnvOk` with a failing storage upload. -/
def envUploadFail : Env :=
  { specEnvOk with uploadErr := some "upload boom" }

/-- `specEnvOk` with a failing order insert. -/
def envInsertFail : Env :=
  { specEnvOk with insertErr := some "insert boom" }

/-- `specEnvOk` with a failing checkout creation. -/
def envCheckoutFail : Env :=
  { specEnvOk with checkoutRes := .error "checkout boom" }

/-- A store holding one pending order whose `payment_ref` is `chk_1`. -/
def exStore : List OrderRow :=
  [{ id := 7, code := "ABC234", bucket := "paid-print-jobs",
     file_path := "ABC234/1_doc.pdf", file_name := "doc.pdf",
     color_mode := "bw", copies := some 1, pages := 1,
     amount_cents := some 200, status := "pending_payment",
     payment_ref := some "chk_1", paid_at := none }]

/-- The single row of `exStore`. -/
def exRow : OrderRow :=
  { id := 7, code := "ABC234", bucket := "paid-print-jobs",
    file_path := "ABC234/1_doc.pdf", file_name := "doc.pdf",
    color_mode := "bw", copies := some 1, pages := 1,
    amount_cents := some 200, status := "pending_payment",
    payment_ref := some "chk_1", paid_at := none }

/-! ## Claims -/

/-- C1: with the default configuration (rate env vars unset, so
`parseInt("200", 10)` and `parseInt("800", 10)`), the computed amount for
any page count p ≥ 1 and copies c ≥ 1 equals p * c * 200 for bw and
p * c * 800 for color; the computation is a pure Lean function of its
arguments, hence deterministic.  The end-to-end instance: a 2-page color
upload with 3 copies is billed 4800 cents by the handler. -/
theorem c1_price_default_rates :
    (∀ (p : Nat) (c : Int), 1 ≤ p → 1 ≤ c →
      priceCents p c "bw" 200 800 = (p : Int) * c * 200 ∧
      priceCents p c "color" 200 800 = (p : Int) * c * 800) ∧
    rateFromEnv none "200" = some 200 ∧
    rateFromEnv none "800" = some 800 ∧
    (createOrder specEnvOk specReqColor).1 =
      CreateResp.success "AAAAAA" 2 (some 3) (some 4800)
        "https://pay.example/redirect" := by
  refine ⟨?_, by decide, by decide, rfl⟩
  intro p c hp hc
  constructor
  · unfold priceCents
    rw [if_pos rfl]
  · unfold priceCents
    rw [if_neg (by decide)]

/-- Witness for C1 at pages = 2, copies = 3. -/
theorem c1_price_default_rates_witness :
    priceCents 2 3 "bw" 200 800 = (2 : Int) * 3 * 200 ∧
    priceCents 2 3 "color" 200 800 = (2 : Int) * 3 * 800 :=
  c1_price_default_rates.1 2 3 (by decide) (by decide)

/-- C2: countPdfPages counts non-overlapping matches of the pattern
`/Type` + whitespace + `/Page` at a word boundary (so `/Type /Pages` is
not counted), returns 1 when there is no match, and in particular returns
3 on bytes with exactly three `/Type /Page` markers and one
`/Type /Pages`; the result is always at least 1. -/
theorem c2_count_pages :
    (∀ l, countPdfPages l =
      if countMatches l = 0 then 1 else countMatches l) ∧
    (∀ l, 1 ≤ countPdfPages l) ∧
    countMatches threePageBytes = 3 ∧
    countPdfPages threePageBytes = 3 ∧
    countMatches pagesOnlyBytes = 0 ∧
    countPdfPages pagesOnlyBytes = 1 := by
  refine ⟨?_, ?_, by decide, by decide, by decide, by decide⟩
  · intro l
    unfold countPdfPages
    rcases h : countMatches l with _ | n <;> simp [h]
  · intro l
    unfold countPdfPages
    rcases h : countMatches l with _ | n <;> simp [h]

/-- C4 counterexample: a non-numeric copies field does not default to 1.
`parseInt("abc", 10)` is NaN and `Math.max(NaN, 1)` is NaN (modelled
`none`), so the value used for pricing and persisted in the row is not an
integer ≥ 1: the success response carries NaN copies and a NaN amount. -/
theorem c4_copies_counterexample :
    computedCopies (some "abc") = none ∧
    computedCopies (some "abc") ≠ some 1 ∧
    (createOrder specEnvOk
      { specReqColor with copies := some "abc" }).1 =
      CreateResp.success "AAAAAA" 2 none none
        "https://pay.example/redirect" := by
  exact ⟨by decide, by decide, rfl⟩

/-- C4 amended: copies defaults to 1 when the field is absent or empty;
whenever the parse yields a number the value is floored to a minimum of 1,
so any copies value that exists is an integer ≥ 1; but a non-numeric field
parses to NaN, which is not replaced by 1. -/
theorem c4_copies_amended :
    computedCopies none = some 1 ∧
    computedCopies (some "") = some 1 ∧
    (∀ fld, 1 ≤ (computedCopies fld).getD 1) ∧
    (∀ s, computedCopies (some s) =
      if s = "" then some 1
      else (jsParseInt10 s).map (fun n => max n 1)) := by
  refine ⟨by decide, by decide, ?_, ?_⟩
  · intro fld
    rcases fld with _ | t
    · decide
    · by_cases ht : t = ""
      · subst ht; decide
      · have hred : computedCopies (some t) =
            (jsParseInt10 t).map (fun n => max n 1) := by
          simp [computedCopies, ht]
        rw [hred]
        cases h : jsParseInt10 t with
        | none => simp
        | some n =>
          have hg : ((some n).map (fun m => max m 1)).getD 1 = max n 1 := rfl
          rw [hg]
          exact le_max_right n 1
  · intro s
    by_cases hs : s = ""
    · subst hs; decide
    · simp [computedCopies, hs]

/-- C7 counterexample: the alphabet literally present in the source,
`ABCDEFGHJKMNPQRSTUVWXYZ23456789`, has 31 characters, not 32 — it also
excludes L. -/
theorem c7_alphabet_counterexample :
    codeAlphabet.length = 31 ∧
    codeAlphabet.length ≠ 32 ∧
    codeAlphabet.contains 'L' = false := by
  decide

/-- C7 amended: generateCode returns exactly 6 characters, each selected
by its own uniform draw over the 31 distinct characters of
`ABCDEFGHJKMNPQRSTUVWXYZ23456789`, which excludes the visually ambiguous
I, O, L, 0 and 1. -/
theorem c7_generate_code_amended :
    (∀ (r : Nat → Fin 31) (call : Nat),
      (genCode r call).length = 6 ∧
      ((genCode r call).data.all
        (fun c => codeAlphabet.contains c)) = true) ∧
    codeAlphabet.length = 31 ∧
    codeAlphabet.Nodup ∧
    codeAlphabet.contains 'I' = false ∧
    codeAlphabet.contains 'O' = false ∧
    codeAlphabet.contains 'L' = false ∧
    codeAlphabet.contains '0' = false ∧
    codeAlphabet.contains '1' = false := by
  refine ⟨?_, by decide, by decide, by decide, by decide, by decide,
    by decide, by decide⟩
  intro r call
  refine ⟨genCode_length r call, ?_⟩
  rw [List.all_eq_true]
  intro c hc
  have hc2 : c ∈ (List.range 6).map (fun i => codeChar (r (6 * call + i))) := hc
  rcases List.mem_map.mp hc2 with ⟨i, _, hi⟩
  have hmem : c ∈ codeAlphabet := hi ▸ codeChar_mem _
  exact List.elem_eq_true_of_mem hmem

/-- C8 counterexample: the replace regex carries a `+`, so a run of
several class characters collapses to a single underscore: `a<>b`
sanitizes to `a_b` (length 3), while per-character replacement — which
always preserves length — would give `a__b`. -/
theorem c8_sanitize_counterexample :
    sanitizeName "a<>b".data = "a_b".data ∧
    charwiseSanitize "a<>b".data = "a__b".data ∧
    sanitizeName "a<>b".data ≠ charwiseSanitize "a<>b".data := by
  decide

/-- C8 amended: the sanitized name is obtained by replacing each maximal
run of one or more of the characters in the class with a single
underscore; characters outside the class are kept unchanged, and the
output never contains a class character. -/
theorem c8_sanitize_amended :
    sanitizeName ([] : List Char) = [] ∧
    (∀ c l, badChar c = false →
      sanitizeName (c :: l) = c :: sanitizeName l) ∧
    (∀ run l, run ≠ [] → run.all badChar = true → headSafeChars l = true →
      sanitizeName (run ++ l) = '_' :: sanitizeName l) ∧
    (∀ l, ((sanitizeName l).all (fun c => !badChar c)) = true) := by
  refine ⟨rfl, ?_, ?_, ?_⟩
  · intro c l hc
    simp [sanitizeName, sanitizeGo, hc]
  · intro run l hne hall hhead
    rcases run with _ | ⟨c, rest⟩
    · exact absurd rfl hne
    have hc : badChar c = true := by
      have := List.all_eq_true.mp hall c (by simp)
      simpa using this
    have hrest : rest.all badChar = true := by
      refine List.all_eq_true.mpr ?_
      intro x hx
      exact List.all_eq_true.mp hall x (by simp [hx])
    show sanitizeGo false (c :: (rest ++ l)) = '_' :: sanitizeGo false l
    rw [show sanitizeGo false (c :: (rest ++ l)) =
        '_' :: sanitizeGo true (rest ++ l) from by simp [sanitizeGo, hc]]
    rw [sanitizeGo_skip_run rest l hrest]
    rw [sanitizeGo_true_of_headSafe l hhead]
  · intro l
    exact sanitizeGo_all_safe l false

/-- Witness for C8 amended: a safe head character is preserved, and a run
of two class characters followed by a safe character becomes one
underscore. -/
theorem c8_sanitize_amended_witness :
    badChar 'a' = false ∧
    sanitizeName ('a' :: "x".data) = 'a' :: sanitizeName "x".data ∧
    (['<', '>'] : List Char) ≠ [] ∧
    (['<', '>'] : List Char).all badChar = true ∧
    headSafeChars "b".data = true ∧
    sanitizeName (['<', '>'] ++ "b".data) = '_' :: sanitizeName "b".data :=
  ⟨by decide,
   c8_sanitize_amended.2.1 'a' "x".data (by decide),
   by decide, by decide, by decide,
   c8_sanitize_amended.2.2.1 ['<', '>'] "b".data (by decide) (by decide)
     (by decide)⟩

/-- C10: a file whose original name is exactly `.pdf` is rejected with the
400 PDF-only error for every environment and every other field value,
because `path.extname` yields the empty extension for a bare leading-dot
name; the extension check therefore differs from a suffix check, which
the name `.pdf` would pass. -/
theorem c10_dotfile_rejected :
    (∀ (env : Env) (cm cp : Option String) (buf : List Nat),
      (createOrder env
        { file := some { originalname := ".pdf", buffer := buf },
          color_mode := cm, copies := cp }).1 =
        CreateResp.badRequest "PDF only allowed") ∧
    extname ".pdf" = "" ∧
    extname "report.pdf" = ".pdf" ∧
    (".pdf".data.isSuffixOf ".pdf".data) = true := by
  refine ⟨?_, by decide, by decide, by decide⟩
  intro env cm cp buf
  rfl

/-- C6: the retry loop probes at most 5 candidates: the chosen candidate
index is the first k < 5 whose probe sees no existing row, and 5 — the
final regeneration, used without any further probe — when all five probes
collide; the index never exceeds 5, and the code the flow proceeds with
always has 6 characters, so the bounded retry never fails the request. -/
theorem c6_code_retry_bounded :
    (∀ (probe : String → DbRead) (gen : Nat → String),
      pickCodeIdx probe gen 5 0 =
        (((List.range 5).find?
            (fun k => !(probe (gen k) == DbRead.row))).getD 5)) ∧
    (∀ (probe : String → DbRead) (gen : Nat → String),
      pickCodeIdx probe gen 5 0 ≤ 5) ∧
    (∀ env : Env, (orderCode env).length = 6) := by
  have hmain : ∀ (probe : String → DbRead) (gen : Nat → String),
      pickCodeIdx probe gen 5 0 =
        (((List.range 5).find?
            (fun k => !(probe (gen k) == DbRead.row))).getD 5) := by
    intro probe gen
    rw [List.range_eq_range']
    simpa using pickCodeIdx_eq_spec probe gen 5 0
  refine ⟨hmain, ?_, ?_⟩
  · intro probe gen
    rw [hmain]
    cases h : (List.range 5).find? (fun k => !(probe (gen k) == DbRead.row))
      with
    | none => simp
    | some k =>
      have hk := List.mem_of_find?_eq_some h
      have hlt := List.mem_range.mp hk
      simp only [Option.getD_some]
      omega
  · intro env
    exact genCode_length env.rand _

/-- C5 counterexample: the final payment_ref update is an order-store
write whose failure the handler never checks — the request still responds
success (and the row keeps a null payment_ref); and a webhook order
lookup that fails in the store is answered 404 Order-not-found, not a
500. -/
theorem c5_update_failure_counterexample :
    (createOrder envUpdateFail specReqColor).1 =
      CreateResp.success "AAAAAA" 2 (some 3) (some 4800)
        "https://pay.example/redirect" ∧
    envUpdateFail.updateRefErr = some "update failed" ∧
    ((createOrder envUpdateFail specReqColor).2.all
      (fun r => r.payment_ref == none)) = true ∧
    (webhookStep exStore (some "db down") (some "chk_1") (some "succeeded")
      "t").1 = WebhookResp.notFound :=
  ⟨rfl, rfl, rfl, rfl⟩

/-- C5 amended: for a request that passes validation, a storage upload
failure, an order insert failure, or a checkout-creation failure each
aborts with a 500 carrying the underlying message; when those three
succeed the handler responds success — regardless of uniqueness-probe
failures and of the unchecked final payment_ref update; and a webhook
order-lookup failure yields 404 with the store unchanged, not a 500. -/
theorem c5_dependent_errors_amended :
    (∀ (env : Env) (req : CreateReq) (f : ReqFile) (e : String),
      req.file = some f →
      jsToLower (extname f.originalname) = ".pdf" →
      (["bw", "color"].contains (reqColorMode req)) = true →
      env.uploadErr = some e →
      (createOrder env req).1 = CreateResp.serverError e) ∧
    (∀ (env : Env) (req : CreateReq) (f : ReqFile) (e : String),
      req.file = some f →
      jsToLower (extname f.originalname) = ".pdf" →
      (["bw", "color"].contains (reqColorMode req)) = true →
      env.uploadErr = none →
      env.insertErr = some e →
      (createOrder env req).1 = CreateResp.serverError e) ∧
    (∀ (env : Env) (req : CreateReq) (f : ReqFile) (e : String),
      req.file = some f →
      jsToLower (extname f.originalname) = ".pdf" →
      (["bw", "color"].contains (reqColorMode req)) = true →
      env.uploadErr = none →
      env.insertErr = none →
      env.checkoutRes = .error e →
      (createOrder env req).1 = CreateResp.serverError e) ∧
    (∀ (env : Env) (req : CreateReq) (f : ReqFile) (ck : Checkout),
      req.file = some f →
      jsToLower (extname f.originalname) = ".pdf" →
      (["bw", "color"].contains (reqColorMode req)) = true →
      env.uploadErr = none →
      env.insertErr = none →
      env.checkoutRes = .ok ck →
      (createOrder env req).1.isSuccess = true) ∧
    (∀ (store : List OrderRow) (m cid t : String),
      cid ≠ "" →
      (webhookStep store (some m) (some cid) (some "succeeded") t).1 =
        WebhookResp.notFound ∧
      (webhookStep store (some m) (some cid) (some "succeeded") t).2 =
        store) := by
  refine ⟨?_, ?_, ?_, ?_, ?_⟩
  · intro env req f e h1 h2 h3 h4
    have hcm : reqColorMode req = "bw" ∨ reqColorMode req = "color" := by
      simpa using h3
    rcases hcm with hcm | hcm <;> simp [createOrder, h1, h2, hcm, h4]
  · intro env req f e h1 h2 h3 h4 h5
    have hcm : reqColorMode req = "bw" ∨ reqColorMode req = "color" := by
      simpa using h3
    rcases hcm with hcm | hcm <;> simp [createOrder, h1, h2, hcm, h4, h5]
  · intro env req f e h1 h2 h3 h4 h5 h6
    have hcm : reqColorMode req = "bw" ∨ reqColorMode req = "color" := by
      simpa using h3
    rcases hcm with hcm | hcm <;>
      simp [createOrder, h1, h2, hcm, h4, h5, h6]
  · intro env req f ck h1 h2 h3 h4 h5 h6
    have hcm : reqColorMode req = "bw" ∨ reqColorMode req = "color" := by
      simpa using h3
    rcases hcm with hcm | hcm <;>
      simp [createOrder, h1, h2, hcm, h4, h5, h6, CreateResp.isSuccess]
  · intro store m cid t hcid
    constructor <;> simp [webhookStep, webhookLookup, hcid]

/-- Witness for C5 amended: each failure mode at a concrete request. -/
theorem c5_dependent_errors_amended_witness :
    (createOrder envUploadFail specReqColor).1 =
      CreateResp.serverError "upload boom" ∧
    (createOrder envInsertFail specReqColor).1 =
      CreateResp.serverError "insert boom" ∧
    (createOrder envCheckoutFail specReqColor).1 =
      CreateResp.serverError "checkout boom" ∧
    (createOrder specEnvOk specReqColor).1.isSuccess = true ∧
    (webhookStep exStore (some "lookup failed") (some "chk_9")
      (some "succeeded") "t").1 = WebhookResp.notFound :=
  ⟨c5_dependent_errors_amended.1 envUploadFail specReqColor
      ⟨"doc.pdf", twoPageBytes⟩ "upload boom" rfl (by decide) (by decide)
      rfl,
   c5_dependent_errors_amended.2.1 envInsertFail specReqColor
      ⟨"doc.pdf", twoPageBytes⟩ "insert boom" rfl (by decide) (by decide)
      rfl rfl,
   c5_dependent_errors_amended.2.2.1 envCheckoutFail specReqColor
      ⟨"doc.pdf", twoPageBytes⟩ "checkout boom" rfl (by decide) (by decide)
      rfl rfl rfl,
   c5_dependent_errors_amended.2.2.2.1 specEnvOk specReqColor
      ⟨"doc.pdf", twoPageBytes⟩ ⟨"ch_123", "https://pay.example/redirect"⟩
      rfl (by decide) (by decide) rfl rfl rfl,
   (c5_dependent_errors_amended.2.2.2.2 exStore "lookup failed" "chk_9" "t"
      (by decide)).1⟩

theorem zip_map_left_all_mem (f : OrderRow → OrderRow)
    (p : OrderRow × OrderRow → Bool) :
    ∀ l : List OrderRow, (∀ r ∈ l, p (f r, r) = true) →
      (((l.map f).zip l).all p) = true := by
  intro l
  induction l with
  | nil => intro _; rfl
  | cons a tl ih =>
    intro hp
    simp only [List.map_cons, List.zip_cons_cons, List.all_cons,
      hp a (by simp), Bool.true_and]
    exact ih (fun r hr => hp r (by simp [hr]))

/-- C3: a webhook event whose status is exactly `succeeded` and whose
payload id is the payment_ref of an existing order marks that order paid
with paid_at set to the current time and answers OK; replaying the same
event answers OK again and leaves the order paid — replaying at the same
timestamp leaves the store literally unchanged — rather than erroring. -/
theorem c3_webhook_paid_idempotent :
    ∀ (store : List OrderRow) (cid t1 t2 : String) (o : OrderRow),
      cid ≠ "" →
      store.filter (fun r => r.payment_ref == some cid) = [o] →
      (webhookStep store none (some cid) (some "succeeded") t1).1 =
        WebhookResp.ok ∧
      o ∈ store ∧
      rowsWithId (webhookStep store none (some cid) (some "succeeded") t1).2
          o.id =
        (rowsWithId store o.id).map
          (fun r => { r with status := "paid", paid_at := some t1 }) ∧
      (webhookStep
          (webhookStep store none (some cid) (some "succeeded") t1).2
          none (some cid) (some "succeeded") t2).1 = WebhookResp.ok ∧
      ((rowsWithId
          (webhookStep
            (webhookStep store none (some cid) (some "succeeded") t1).2
            none (some cid) (some "succeeded") t2).2 o.id).all
        (fun r => r.status == "paid")) = true ∧
      (webhookStep
          (webhookStep store none (some cid) (some "succeeded") t1).2
          none (some cid) (some "succeeded") t1).2 =
        (webhookStep store none (some cid) (some "succeeded") t1).2 := by
  intro store cid t1 t2 o hcid hfilter
  have hlook1 : webhookLookup store none cid = some o := by
    simp [webhookLookup, hfilter]
  have hstep1 : webhookStep store none (some cid) (some "succeeded") t1 =
      (WebhookResp.ok, store.map (paidUpdate t1 o.id)) := by
    simp [webhookStep, hcid, hlook1]
  have hpres : ∀ r : OrderRow,
      ((fun r => r.payment_ref == some cid) (paidUpdate t1 o.id r)) =
        ((fun r => r.payment_ref == some cid) r) := by
    intro r; simp [paidUpdate_payment_ref]
  have hfilter2 : (store.map (paidUpdate t1 o.id)).filter
      (fun r => r.payment_ref == some cid) = [paidUpdate t1 o.id o] := by
    rw [filter_map_comm _ _ hpres, hfilter]; rfl
  have hlook2 : webhookLookup (store.map (paidUpdate t1 o.id)) none cid =
      some (paidUpdate t1 o.id o) := by
    simp [webhookLookup, hfilter2]
  have hid : (paidUpdate t1 o.id o).id = o.id := paidUpdate_id t1 o.id o
  have hstep2 : ∀ t, webhookStep (store.map (paidUpdate t1 o.id)) none
      (some cid) (some "succeeded") t =
      (WebhookResp.ok,
        (store.map (paidUpdate t1 o.id)).map (paidUpdate t o.id)) := by
    intro t
    simp [webhookStep, hcid, hlook2, hid]
  have hidpresG : ∀ t, ∀ r : OrderRow,
      ((fun r => r.id == o.id) (paidUpdate t o.id r)) =
        ((fun r => r.id == o.id) r) := by
    intro t r; simp [paidUpdate_id]
  have hmemf : o ∈ store.filter (fun r => r.payment_ref == some cid) := by
    rw [hfilter]; exact List.mem_singleton_self o
  have hmem : o ∈ store := List.mem_of_mem_filter hmemf
  refine ⟨by rw [hstep1], hmem, ?_, ?_, ?_, ?_⟩
  · simp only [hstep1]
    show rowsWithId (store.map (paidUpdate t1 o.id)) o.id = _
    unfold rowsWithId
    rw [filter_map_comm _ _ (hidpresG t1) store]
    refine List.map_congr_left ?_
    intro r hr
    have hrid : r.id = o.id := by
      have := (List.mem_filter.mp hr).2
      simpa using this
    simp [paidUpdate, hrid]
  · simp only [hstep1]
    rw [hstep2 t2]
  · simp only [hstep1]
    rw [hstep2 t2]
    show ((rowsWithId
      ((store.map (paidUpdate t1 o.id)).map (paidUpdate t2 o.id))
      o.id).all (fun r => r.status == "paid")) = true
    unfold rowsWithId
    rw [filter_map_comm _ _ (hidpresG t2)]
    rw [List.all_eq_true]
    intro r' hr'
    rcases List.mem_map.mp hr' with ⟨r, hrmem, rfl⟩
    have hrid : r.id = o.id := by
      have := (List.mem_filter.mp hrmem).2
      simpa using this
    simp [paidUpdate, hrid]
  · simp only [hstep1]
    rw [hstep2 t1]
    show (store.map (paidUpdate t1 o.id)).map (paidUpdate t1 o.id) =
      store.map (paidUpdate t1 o.id)
    rw [List.map_map]
    exact List.map_congr_left (fun r _ => paidUpdate_idem t1 o.id r)

/-- Witness for C3 at a one-row store holding a pending order with
payment_ref chk_1. -/
theorem c3_webhook_paid_idempotent_witness :
    (webhookStep exStore none (some "chk_1") (some "succeeded") "t1").1 =
      WebhookResp.ok ∧
    ((rowsWithId
        (webhookStep
          (webhookStep exStore none (some "chk_1") (some "succeeded")
            "t1").2
          none (some "chk_1") (some "succeeded") "t2").2 exRow.id).all
      (fun r => r.status == "paid")) = true ∧
    (webhookStep
        (webhookStep exStore none (some "chk_1") (some "succeeded") "t1").2
        none (some "chk_1") (some "succeeded") "t1").2 =
      (webhookStep exStore none (some "chk_1") (some "succeeded") "t1").2 :=
  ⟨(c3_webhook_paid_idempotent exStore "chk_1" "t1" "t2" exRow (by decide)
      (by decide)).1,
   (c3_webhook_paid_idempotent exStore "chk_1" "t1" "t2" exRow (by decide)
      (by decide)).2.2.2.2.1,
   (c3_webhook_paid_idempotent exStore "chk_1" "t1" "t2" exRow (by decide)
      (by decide)).2.2.2.2.2⟩

/-- C9: createOrder either leaves every stored status unchanged or appends
exactly one row whose status is pending_payment (its only update touches
payment_ref, never status); the webhook handler changes a row status only
to paid; and on a store whose rows are all pending_payment or paid, the
only transition the webhook performs is pending_payment to paid — in
particular no row ever moves out of paid. -/
theorem c9_status_forward_only :
    (∀ (env : Env) (req : CreateReq),
      ((createOrder env req).2.map (fun r => r.status) =
        env.store.map (fun r => r.status)) ∨
      ((createOrder env req).2.map (fun r => r.status) =
        env.store.map (fun r => r.status) ++ ["pending_payment"])) ∧
    (∀ (store : List OrderRow) (lerr : Option String)
        (pid pstatus : Option String) (t : String),
      (((webhookStep store lerr pid pstatus t).2.zip store).all
        (fun pr => pr.1.status == pr.2.status ||
          pr.1.status == "paid")) = true) ∧
    (∀ (store : List OrderRow) (lerr : Option String)
        (pid pstatus : Option String) (t : String),
      (store.all (fun r => r.status == "pending_payment" ||
        r.status == "paid")) = true →
      (((webhookStep store lerr pid pstatus t).2.zip store).all
        (fun pr => pr.1.status == pr.2.status ||
          (pr.2.status == "pending_payment" &&
            pr.1.status == "paid"))) = true ∧
      ((webhookStep store lerr pid pstatus t).2.all
        (fun r => r.status == "pending_payment" ||
          r.status == "paid")) = true) := by
  refine ⟨?_, ?_, ?_⟩
  · intro env req
    rcases hfile : req.file with _ | f
    · left; simp [createOrder, hfile]
    by_cases hext : jsToLower (extname f.originalname) = ".pdf"
    case neg => left; simp [createOrder, hfile, hext]
    cases hcm : ["bw", "color"].contains (reqColorMode req) with
    | false =>
      have hcm2 : ¬(reqColorMode req = "bw" ∨ reqColorMode req = "color") :=
        by simpa using hcm
      rw [not_or] at hcm2
      left
      simp [createOrder, hfile, hext, hcm2.1, hcm2.2]
    | true =>
      have hcmd : reqColorMode req = "bw" ∨ reqColorMode req = "color" :=
        by simpa using hcm
      rcases hu : env.uploadErr with _ | e
      · rcases hi : env.insertErr with _ | e
        · rcases hc : env.checkoutRes with e | ck
          · right
            rcases hcmd with hcm3 | hcm3 <;>
              simp [createOrder, hfile, hext, hcm3, hu, hi, hc]
          · rcases hup : env.updateRefErr with _ | u
            · right
              have hg : ∀ l : List OrderRow,
                  (l.map (fun r => if r.id = env.nextId then
                    { r with payment_ref := some ck.id } else r)).map
                    (fun r => r.status) = l.map (fun r => r.status) := by
                intro l
                rw [List.map_map]
                refine List.map_congr_left ?_
                intro r _
                by_cases hr : r.id = env.nextId <;>
                  simp [Function.comp, hr]
              rcases hcmd with hcm3 | hcm3 <;>
                simp [createOrder, hfile, hext, hcm3, hu, hi, hc, hup, hg]
            · right
              rcases hcmd with hcm3 | hcm3 <;>
                simp [createOrder, hfile, hext, hcm3, hu, hi, hc, hup]
        · left
          rcases hcmd with hcm3 | hcm3 <;>
            simp [createOrder, hfile, hext, hcm3, hu, hi]
      · left
        rcases hcmd with hcm3 | hcm3 <;>
          simp [createOrder, hfile, hext, hcm3, hu]
  · intro store lerr pid pstatus t
    rcases pid with _ | cid
    · have hstep : (webhookStep store lerr none pstatus t).2 = store := by
        simp [webhookStep]
      rw [hstep]
      exact zip_refl_all _ (by intro r; simp) store
    by_cases hc : cid = ""
    case pos =>
      have hstep : (webhookStep store lerr (some cid) pstatus t).2 =
          store := by simp [webhookStep, hc]
      rw [hstep]
      exact zip_refl_all _ (by intro r; simp) store
    by_cases hs : pstatus = some "succeeded"
    case neg =>
      have hstep : (webhookStep store lerr (some cid) pstatus t).2 =
          store := by simp [webhookStep, hc, hs]
      rw [hstep]
      exact zip_refl_all _ (by intro r; simp) store
    rcases hl : webhookLookup store lerr cid with _ | o
    · have hstep : (webhookStep store lerr (some cid) pstatus t).2 =
          store := by simp [webhookStep, hc, hs, hl]
      rw [hstep]
      exact zip_refl_all _ (by intro r; simp) store
    · have hstep : (webhookStep store lerr (some cid) pstatus t).2 =
          store.map (paidUpdate t o.id) := by
        simp [webhookStep, hc, hs, hl]
      rw [hstep]
      refine zip_map_left_all_mem _ _ store ?_
      intro r _
      by_cases hid : r.id = o.id
      · simp [paidUpdate, hid]
      · simp [paidUpdate, hid]
  · intro store lerr pid pstatus t hall
    have hzself : ((store.zip store).all
        (fun pr => pr.1.status == pr.2.status ||
          (pr.2.status == "pending_payment" &&
            pr.1.status == "paid"))) = true :=
      zip_refl_all _ (by intro r; simp) store
    rcases pid with _ | cid
    · have hstep : (webhookStep store lerr none pstatus t).2 = store := by
        simp [webhookStep]
      rw [hstep]
      exact ⟨hzself, hall⟩
    by_cases hc : cid = ""
    case pos =>
      have hstep : (webhookStep store lerr (some cid) pstatus t).2 =
          store := by simp [webhookStep, hc]
      rw [hstep]
      exact ⟨hzself, hall⟩
    by_cases hs : pstatus = some "succeeded"
    case neg =>
      have hstep : (webhookStep store lerr (some cid) pstatus t).2 =
          store := by simp [webhookStep, hc, hs]
      rw [hstep]
      exact ⟨hzself, hall⟩
    rcases hl : webhookLookup store lerr cid with _ | o
    · have hstep : (webhookStep store lerr (some cid) pstatus t).2 =
          store := by simp [webhookStep, hc, hs, hl]
      rw [hstep]
      exact ⟨hzself, hall⟩
    · have hstep : (webhookStep store lerr (some cid) pstatus t).2 =
          store.map (paidUpdate t o.id) := by
        simp [webhookStep, hc, hs, hl]
      rw [hstep]
      constructor
      · refine zip_map_left_all_mem _ _ store ?_
        intro r hr
        have hst := List.all_eq_true.mp hall r hr
        have hst2 : r.status = "pending_payment" ∨ r.status = "paid" := by
          simpa using hst
        by_cases hid : r.id = o.id
        · rcases hst2 with h2 | h2 <;> simp [paidUpdate, hid, h2]
        · simp [paidUpdate, hid]
      · rw [List.all_eq_true]
        intro r' hr'
        rcases List.mem_map.mp hr' with ⟨r, hrmem, rfl⟩
        have hst := List.all_eq_true.mp hall r hrmem
        by_cases hid : r.id = o.id
        · simp [paidUpdate, hid]
        · simpa [paidUpdate, hid] using hst

/-- Witness for C9 on the one-row pending store: after a successful
webhook the store statuses stay within the lifecycle. -/
theorem c9_status_forward_only_witness :
    ((exStore.all (fun r => r.status == "pending_payment" ||
      r.status == "paid")) = true) ∧
    ((webhookStep exStore none (some "chk_1") (some "succeeded") "t").2.all
      (fun r => r.status == "pending_payment" ||
        r.status == "paid")) = true :=
  ⟨by decide,
   (c9_status_forward_only.2.2 exStore none (some "chk_1")
      (some "succeeded") "t" (by decide)).2⟩
